import Mathlib

/-!
Verification development for `efikeygen.c` (pesign).

The file embeds, as Lean definitions, the byte-level behavior of the
signature-bundling step (`bundle_signature`, `SignedCertTemplate`), the
extension-assembly pipeline (`add_extensions_to_crq` and the individual
`add_*` extension builders), and the argument-validation and file-open
logic of `main`.  External NSS/cms_common primitives that are not part of
the single source file are modelled from the specification and are marked
as such in their doc comments.

Byte strings are `List Nat` (each element one octet).  DER definite-length
encoding is modelled explicitly, so that the hard-coded byte patch
`sigder->data[sigder->len - 261] = DER_BIT_STRING` can be analysed exactly.
-/

namespace Efikeygen

set_option maxRecDepth 100000

/-- Fuel-driven big-endian base-256 digit expansion; `natBytesF f n` is the
minimal big-endian byte list of `n` provided `n ≤ f`. -/
def natBytesF : Nat → Nat → List Nat
  | 0, _ => []
  | f + 1, n => if n = 0 then [] else natBytesF f (n / 256) ++ [n % 256]

/-- Minimal big-endian byte representation of a natural number (empty for 0). -/
def natBytes (n : Nat) : List Nat := natBytesF n n

/-- Fuel irrelevance for `natBytesF`. -/
theorem natBytesF_congr : ∀ (f₁ f₂ n : Nat), n ≤ f₁ → n ≤ f₂ →
    natBytesF f₁ n = natBytesF f₂ n := by
  intro f₁
  induction f₁ with
  | zero =>
    intro f₂ n h₁ _
    interval_cases n
    cases f₂ <;> simp [natBytesF]
  | succ f ih =>
    intro f₂ n h₁ h₂
    by_cases hn : n = 0
    · subst hn; cases f₂ <;> simp [natBytesF]
    · have hpos : 0 < n := Nat.pos_of_ne_zero hn
      obtain ⟨f₂', rfl⟩ : ∃ k, f₂ = k + 1 := by
        cases f₂ with
        | zero => omega
        | succ k => exact ⟨k, rfl⟩
      have hdiv : n / 256 < n := Nat.div_lt_self hpos (by norm_num)
      simp only [natBytesF, hn, if_false]
      rw [ih f₂' (n / 256) (by omega) (by omega)]

/-- Unfolding equation for `natBytes`. -/
theorem natBytes_eq (n : Nat) :
    natBytes n = if n = 0 then [] else natBytes (n / 256) ++ [n % 256] := by
  by_cases hn : n = 0
  · subst hn; simp [natBytes, natBytesF]
  · obtain ⟨m, rfl⟩ : ∃ m, n = m + 1 := by
      cases n with
      | zero => omega
      | succ m => exact ⟨m, rfl⟩
    simp only [natBytes, natBytesF, hn, if_false]
    have hdiv : (m + 1) / 256 < m + 1 := Nat.div_lt_self (by omega) (by norm_num)
    rw [natBytesF_congr m ((m + 1) / 256) ((m + 1) / 256) (by omega) le_rfl]

/-- Big-endian byte-list to natural number. -/
def bytesToNat (l : List Nat) : Nat := l.foldl (fun a b => a * 256 + b) 0

theorem foldl_natBytes (n : Nat) : ∀ a : Nat,
    List.foldl (fun x b => x * 256 + b) a (natBytes n)
      = a * 256 ^ (natBytes n).length + n := by
  induction n using Nat.strong_induction_on with
  | _ n ih =>
    intro a
    by_cases hn : n = 0
    · subst hn; rw [natBytes_eq]; simp
    · have hdiv : n / 256 < n := Nat.div_lt_self (Nat.pos_of_ne_zero hn) (by norm_num)
      rw [natBytes_eq]
      simp only [hn, if_false, List.foldl_append, List.length_append, List.foldl_cons,
        List.foldl_nil, List.length_cons, List.length_nil]
      rw [ih (n / 256) hdiv a]
      have hmod : 256 * (n / 256) + n % 256 = n := Nat.div_add_mod n 256
      ring_nf
      omega

theorem bytesToNat_natBytes (n : Nat) : bytesToNat (natBytes n) = n := by
  have h := foldl_natBytes n 0
  simpa [bytesToNat] using h

/-- DER definite-length encoding of a length `n`. -/
def lenEncode (n : Nat) : List Nat :=
  if n < 128 then [n] else (128 + (natBytes n).length) :: natBytes n

/-- A DER tag-length-value element: tag octet, definite length, contents. -/
def derTlv (t : Nat) (c : List Nat) : List Nat := t :: (lenEncode c.length ++ c)

theorem derTlv_length (t : Nat) (c : List Nat) :
    (derTlv t c).length = 1 + (lenEncode c.length).length + c.length := by
  simp [derTlv]; omega

/-- Parse a DER definite length from the head of a byte list, returning the
length and the remaining bytes. -/
def parseLen : List Nat → Option (Nat × List Nat)
  | [] => none
  | b :: r =>
    if b < 128 then some (b, r)
    else
      let k := b - 128
      if k ≤ r.length then some (bytesToNat (r.take k), r.drop k) else none

/-- Parse one DER TLV element: returns the tag, the contents, and the rest. -/
def parseTLV (l : List Nat) : Option (Nat × List Nat × List Nat) :=
  match l with
  | [] => none
  | t :: r =>
    match parseLen r with
    | none => none
    | some (n, r₂) =>
      if n ≤ r₂.length then some (t, r₂.take n, r₂.drop n) else none

theorem parseLen_lenEncode (n : Nat) (r : List Nat) :
    parseLen (lenEncode n ++ r) = some (n, r) := by
  by_cases h : n < 128
  · simp [lenEncode, h, parseLen]
  · have hk : ¬ (128 + (natBytes n).length < 128) := by omega
    simp only [lenEncode, h, if_false, List.cons_append, parseLen, hk,
      Nat.add_sub_cancel_left]
    have hle : (natBytes n).length ≤ (natBytes n ++ r).length := by
      simp
    simp [hle, List.take_left, List.drop_left, bytesToNat_natBytes]

theorem parseTLV_derTlv (t : Nat) (c r : List Nat) :
    parseTLV (derTlv t c ++ r) = some (t, c, r) := by
  have h : derTlv t c ++ r = t :: (lenEncode c.length ++ (c ++ r)) := by
    simp [derTlv]
  rw [h]
  simp only [parseTLV, parseLen_lenEncode]
  have hle : c.length ≤ (c ++ r).length := by simp
  simp [hle, List.take_left, List.drop_left]

theorem parseTLV_derTlv_nil (t : Nat) (c : List Nat) :
    parseTLV (derTlv t c) = some (t, c, []) := by
  have h := parseTLV_derTlv t c []
  simpa using h

/-- Two equal TLV encodings have equal tags and equal contents. -/
theorem derTlv_inj {t₁ t₂ : Nat} {c₁ c₂ : List Nat}
    (h : derTlv t₁ c₁ = derTlv t₂ c₂) : t₁ = t₂ ∧ c₁ = c₂ := by
  have h₁ := parseTLV_derTlv_nil t₁ c₁
  rw [h, parseTLV_derTlv_nil] at h₁
  simp only [Option.some.injEq, Prod.mk.injEq] at h₁
  exact ⟨h₁.1.symm, h₁.2.1.symm⟩

/-! ## Signature Bundler (`bundle_signature`, efikeygen.c:80-110)

`SignedCertTemplate` (efikeygen.c:56-78) describes
`SEQUENCE { data ANY, keytype AlgorithmID (inline), sig OCTET STRING }`.
`SEC_ASN1_ANY` emits the `data` item's bytes verbatim, so `data` must itself
be one complete DER element; the `sig` item is emitted as an OCTET STRING
(tag `0x04`), whose tag octet the post-encoding patch then rewrites to
`DER_BIT_STRING` (`0x03`). -/

/-- Modelled from the spec: `generate_algorithm_id` (cms_common.c, not in
src) resolves the algorithm-identifier structure for the given OID; per
`SECOID_AlgorithmIDTemplate` it is a SEQUENCE holding the OID (tag `0x06`)
and NULL parameters (tag `0x05`). -/
def generate_algorithm_id (oid : List Nat) : List Nat :=
  derTlv 0x30 (derTlv 0x06 oid ++ derTlv 0x05 [])

/-- The signature buffer of `bundle_signature`: `calloc(1, signature->len + 1)`
followed by `memcpy` of the raw signature at offset 1 (efikeygen.c:89-95);
byte 0 is the zero left by `calloc` (the BIT STRING unused-bits octet). -/
def sigBuffer (signature : List Nat) : List Nat := 0 :: signature

/-- `SEC_ASN1EncodeItem(NULL, sigder, &cert, SignedCertTemplate)`
(efikeygen.c:102): the unpatched DER encoding of the three-field SEQUENCE. -/
def encodeSignedCert (data oid signature : List Nat) : List Nat :=
  derTlv 0x30 (data ++ generate_algorithm_id oid ++ derTlv 0x04 (sigBuffer signature))

/-- `bundle_signature` (efikeygen.c:80-110): encode the SEQUENCE, then patch
`sigder->data[sigder->len - 261] = DER_BIT_STRING` (line 107).  When the
encoded buffer is shorter than 261 bytes the C code writes out of bounds
(undefined behavior); the model leaves the in-bounds bytes unchanged in
that case. -/
def bundle_signature (data oid signature : List Nat) : List Nat :=
  if 261 ≤ (encodeSignedCert data oid signature).length then
    (encodeSignedCert data oid signature).set
      ((encodeSignedCert data oid signature).length - 261) 0x03
  else encodeSignedCert data oid signature

/-- Decoder for the Bundler's output: parses the outer SEQUENCE, the `data`
element (returned as its full TLV bytes, matching the ANY field), the
algorithm identifier (returning the OID contents), and the signature field
(returning its tag octet and its contents). -/
def decodeSignedCert (l : List Nat) : Option (List Nat × List Nat × Nat × List Nat) :=
  match parseTLV l with
  | none => none
  | some (t₀, body, rest₀) =>
    if t₀ = 0x30 ∧ rest₀ = [] then
      match parseTLV body with
      | none => none
      | some (t₁, c₁, r₁) =>
        match parseTLV r₁ with
        | none => none
        | some (t₂, algid, r₂) =>
          match parseTLV r₂ with
          | none => none
          | some (t₃, c₃, r₃) =>
            match parseTLV algid with
            | none => none
            | some (t₄, oidBytes, _) =>
              if t₂ = 0x30 ∧ t₄ = 0x06 ∧ r₃ = [] then
                some (derTlv t₁ c₁, oidBytes, t₃, c₃)
              else none
    else none

theorem lenEncode_257 : lenEncode 257 = [130, 1, 1] := by decide

/-- Setting the element just past a prefix. -/
theorem set_append_length {α : Type} (l₁ l₂ : List α) (x v : α) :
    (l₁ ++ x :: l₂).set l₁.length v = l₁ ++ v :: l₂ := by
  induction l₁ with
  | nil => rfl
  | cons a t ih => simp [List.set, ih]

/-- Decomposition of the unpatched encoding into the bytes before the
signature field and the signature field itself. -/
theorem encodeSignedCert_decomp (data oid signature : List Nat) :
    encodeSignedCert data oid signature
      = (0x30 :: lenEncode (data ++ generate_algorithm_id oid
            ++ derTlv 0x04 (sigBuffer signature)).length
          ++ (data ++ generate_algorithm_id oid))
        ++ derTlv 0x04 (sigBuffer signature) := by
  simp [encodeSignedCert, derTlv]

/-- With a 256-byte raw signature the encoded signature field is exactly
261 bytes: tag, three length octets (`82 01 01` for 257), 257 contents. -/
theorem sigField_length_256 (signature : List Nat) (h : signature.length = 256) :
    (derTlv 0x04 (sigBuffer signature)).length = 261 := by
  rw [derTlv_length]
  simp [sigBuffer, h, lenEncode_257]

/-- For a 256-byte raw signature the `- 261` patch lands exactly on the
signature field's tag octet, turning the OCTET STRING tag into
`DER_BIT_STRING`: the patched buffer is the same SEQUENCE with the
signature field re-tagged as a BIT STRING. -/
theorem bundle_signature_eq_of_len256 (data oid signature : List Nat)
    (h : signature.length = 256) :
    bundle_signature data oid signature
      = derTlv 0x30 (data ++ generate_algorithm_id oid
          ++ derTlv 0x03 (sigBuffer signature)) := by
  have hfield := sigField_length_256 signature h
  have hdec := encodeSignedCert_decomp data oid signature
  set pre := 0x30 :: lenEncode (data ++ generate_algorithm_id oid
      ++ derTlv 0x04 (sigBuffer signature)).length
    ++ (data ++ generate_algorithm_id oid) with hpre
  have hlen : (encodeSignedCert data oid signature).length = pre.length + 261 := by
    rw [hdec, List.length_append, hfield]
  have hguard : 261 ≤ (encodeSignedCert data oid signature).length := by omega
  have hidx : (encodeSignedCert data oid signature).length - 261 = pre.length := by omega
  have hsig4 : derTlv 0x04 (sigBuffer signature)
      = 0x04 :: (lenEncode (sigBuffer signature).length ++ sigBuffer signature) := rfl
  have hsig3 : derTlv 0x03 (sigBuffer signature)
      = 0x03 :: (lenEncode (sigBuffer signature).length ++ sigBuffer signature) := rfl
  have hset : (encodeSignedCert data oid signature).set
        ((encodeSignedCert data oid signature).length - 261) 0x03
      = pre ++ derTlv 0x03 (sigBuffer signature) := by
    rw [hidx, hdec, hsig4, hsig3, set_append_length]
  have hbody : (data ++ generate_algorithm_id oid ++ derTlv 0x04 (sigBuffer signature)).length
      = (data ++ generate_algorithm_id oid ++ derTlv 0x03 (sigBuffer signature)).length := by
    simp [derTlv_length]
  calc bundle_signature data oid signature
      = (encodeSignedCert data oid signature).set
          ((encodeSignedCert data oid signature).length - 261) 0x03 := by
        simp [bundle_signature, hguard]
    _ = pre ++ derTlv 0x03 (sigBuffer signature) := hset
    _ = derTlv 0x30 (data ++ generate_algorithm_id oid
          ++ derTlv 0x03 (sigBuffer signature)) := by
        rw [hpre, hbody]
        simp [derTlv]

/-- Decoding a well-formed re-tagged SignedCert SEQUENCE recovers each field. -/
theorem decodeSignedCert_encode (t : Nat) (c oid sig : List Nat) :
    decodeSignedCert (derTlv 0x30 (derTlv t c ++ generate_algorithm_id oid
        ++ derTlv 0x03 (sigBuffer sig)))
      = some (derTlv t c, oid, 0x03, sigBuffer sig) := by
  have hbody : derTlv t c ++ generate_algorithm_id oid ++ derTlv 0x03 (sigBuffer sig)
      = derTlv t c ++ (derTlv 0x30 (derTlv 0x06 oid ++ derTlv 0x05 [])
          ++ derTlv 0x03 (sigBuffer sig)) := by
    simp [generate_algorithm_id]
  rw [hbody]
  simp only [decodeSignedCert, parseTLV_derTlv_nil, parseTLV_derTlv]
  simp

/-- The round-trip property the spec asserts of the Bundler for arbitrary
inputs: decoding the output yields the `data` bytes byte-identically, the
input OID, a field carrying the BIT STRING tag, and contents that equal the
raw signature once the unused-bits octet is stripped. -/
def signatureRoundTrips (data oid sig : List Nat) : Bool :=
  match decodeSignedCert (bundle_signature data oid sig) with
  | some (d, o, t, c) => d == data && o == oid && t == 0x03 && c.drop 1 == sig
  | none => false

/-- C1 (amended): for the signature length the hard-coded patch offset
targets — a raw signature of exactly 256 bytes — and a well-formed DER
`tbs_data` element, decoding the Bundler's output SEQUENCE yields the exact
`tbs_data` bytes byte-identically, the input OID, and a BIT STRING
(tag `0x03`) whose contents, after stripping the unused-bits octet, equal
the raw signature. -/
theorem C1_bundle_signature_roundtrip (t : Nat) (c oid sig : List Nat)
    (h : sig.length = 256) :
    decodeSignedCert (bundle_signature (derTlv t c) oid sig)
        = some (derTlv t c, oid, 0x03, sigBuffer sig)
      ∧ (sigBuffer sig).drop 1 = sig := by
  rw [bundle_signature_eq_of_len256 _ _ _ h, decodeSignedCert_encode]
  exact ⟨rfl, rfl⟩

/-- C1 witness: the round-trip theorem applied at a concrete 256-byte
signature. -/
theorem C1_bundle_signature_roundtrip_witness :
    decodeSignedCert (bundle_signature (derTlv 0x30 [0x05, 0x00]) [0x2A]
          (List.replicate 256 0x11))
        = some (derTlv 0x30 [0x05, 0x00], [0x2A], 0x03,
            sigBuffer (List.replicate 256 0x11))
      ∧ (sigBuffer (List.replicate 256 0x11)).drop 1 = List.replicate 256 0x11 :=
  C1_bundle_signature_roundtrip 0x30 [0x05, 0x00] [0x2A]
    (List.replicate 256 0x11) (by simp)

/-- C1 counterexample: with a 300-byte raw signature the claim as stated
fails — the hard-coded patch does not hit the signature field's tag octet,
so the decoded third field still carries the OCTET STRING tag (and one
signature byte was corrupted); the round trip does not hold for every raw
signature. -/
theorem C1_roundtrip_counterexample :
    signatureRoundTrips (derTlv 0x30 [0x05, 0x00]) [0x2A]
      (List.replicate 300 0x11) = false := by
  decide

/-- The bytes of the encoded SEQUENCE that precede the signature field. -/
def preSigField (data oid sig : List Nat) : List Nat :=
  0x30 :: lenEncode (data ++ generate_algorithm_id oid
      ++ derTlv 0x04 (sigBuffer sig)).length
    ++ (data ++ generate_algorithm_id oid)

/-- The bytes of the encoded SEQUENCE that precede the signature field's
contents (i.e. up to and including the field's tag and length octets). -/
def preSigContent (data oid sig : List Nat) : List Nat :=
  preSigField data oid sig ++ 0x04 :: lenEncode (sigBuffer sig).length

theorem encodeSignedCert_decompField (data oid sig : List Nat) :
    encodeSignedCert data oid sig
      = preSigField data oid sig ++ derTlv 0x04 (sigBuffer sig) := by
  simp [encodeSignedCert, derTlv, preSigField]

theorem encodeSignedCert_decompContent (data oid sig : List Nat) :
    encodeSignedCert data oid sig
      = preSigContent data oid sig ++ sigBuffer sig := by
  simp [encodeSignedCert, derTlv, preSigField, preSigContent]

theorem bundle_signature_length (data oid sig : List Nat) :
    (bundle_signature data oid sig).length
      = (encodeSignedCert data oid sig).length := by
  unfold bundle_signature
  split <;> simp

/-- C2 (amended): after DER-encoding the three-field SEQUENCE the Bundler
overwrites exactly one byte — at the fixed offset `len − 261` from the end
of the buffer — with the canonical BIT STRING tag value `0x03`; when the
raw signature is exactly 256 bytes (the case the hard-coded offset is
derived from) that byte is the tag octet of the encoded signature field,
so after the patch the signature field carries the BIT STRING tag. -/
theorem C2_patch_targets_sig_tag (data oid sig : List Nat)
    (h : sig.length = 256) :
    bundle_signature data oid sig
        = (encodeSignedCert data oid sig).set
            ((encodeSignedCert data oid sig).length - 261) 0x03
      ∧ encodeSignedCert data oid sig
          = preSigField data oid sig ++ derTlv 0x04 (sigBuffer sig)
      ∧ (preSigField data oid sig).length
          = (encodeSignedCert data oid sig).length - 261
      ∧ bundle_signature data oid sig
          = preSigField data oid sig ++ derTlv 0x03 (sigBuffer sig) := by
  have hfield := sigField_length_256 sig h
  have hdec := encodeSignedCert_decompField data oid sig
  have hlen : (encodeSignedCert data oid sig).length
      = (preSigField data oid sig).length + 261 := by
    rw [hdec, List.length_append, hfield]
  have hguard : 261 ≤ (encodeSignedCert data oid sig).length := by omega
  have hidx : (encodeSignedCert data oid sig).length - 261
      = (preSigField data oid sig).length := by omega
  have hone : bundle_signature data oid sig
      = (encodeSignedCert data oid sig).set
          ((encodeSignedCert data oid sig).length - 261) 0x03 := by
    simp [bundle_signature, hguard]
  refine ⟨hone, hdec, hidx.symm, ?_⟩
  have hsig4 : derTlv 0x04 (sigBuffer sig)
      = 0x04 :: (lenEncode (sigBuffer sig).length ++ sigBuffer sig) := rfl
  have hsig3 : derTlv 0x03 (sigBuffer sig)
      = 0x03 :: (lenEncode (sigBuffer sig).length ++ sigBuffer sig) := rfl
  rw [hone, hidx, hdec, hsig4, hsig3, set_append_length]

/-- C2 witness: the patch theorem applied at a concrete 256-byte signature. -/
theorem C2_patch_targets_sig_tag_witness :
    bundle_signature [0x99] [0x2B] (List.replicate 256 0x22)
        = (encodeSignedCert [0x99] [0x2B] (List.replicate 256 0x22)).set
            ((encodeSignedCert [0x99] [0x2B] (List.replicate 256 0x22)).length - 261) 0x03
      ∧ encodeSignedCert [0x99] [0x2B] (List.replicate 256 0x22)
          = preSigField [0x99] [0x2B] (List.replicate 256 0x22)
            ++ derTlv 0x04 (sigBuffer (List.replicate 256 0x22))
      ∧ (preSigField [0x99] [0x2B] (List.replicate 256 0x22)).length
          = (encodeSignedCert [0x99] [0x2B] (List.replicate 256 0x22)).length - 261
      ∧ bundle_signature [0x99] [0x2B] (List.replicate 256 0x22)
          = preSigField [0x99] [0x2B] (List.replicate 256 0x22)
            ++ derTlv 0x03 (sigBuffer (List.replicate 256 0x22)) :=
  C2_patch_targets_sig_tag [0x99] [0x2B] (List.replicate 256 0x22) (by simp)

/-- The property C2 asserts of every input: the Bundler's output is the
encoded SEQUENCE with the byte at offset `len − 261` overwritten by `0x03`,
and that offset is the position of the encoded signature field's tag octet
(the field is the final suffix of the buffer). -/
def patchIsSigTag (data oid sig : List Nat) : Bool :=
  let enc := encodeSignedCert data oid sig
  (bundle_signature data oid sig == enc.set (enc.length - 261) 0x03)
    && (enc.length - 261 == enc.length - (derTlv 0x04 (sigBuffer sig)).length)

/-- C2 counterexample: with a 300-byte raw signature the patched offset is
not the signature field's tag octet (the field is 305 bytes long, so its
tag octet sits at `len − 305`, and the patch corrupts a content byte
instead). -/
theorem C2_patch_counterexample :
    patchIsSigTag [0x30, 0x00] [0x2B] (List.replicate 300 0x22) = false := by
  decide

/-- C3 (amended): the Bundler's signature buffer is exactly one byte longer
than the raw signature, carries the raw signature from offset 1, and has
`0x00` at byte 0; in the Bundler's output the unused-bits octet (the first
content byte of the signature field, i.e. the byte at offset
`len − (|sig| + 1)` from the end) is `0x00` for every raw-signature length
except 260 — at length 260 the hard-coded patch overwrites precisely that
octet with `0x03`. -/
theorem C3_unused_bits_octet (data oid sig : List Nat)
    (h : sig.length ≠ 260) :
    sigBuffer sig = 0 :: sig
      ∧ (sigBuffer sig).length = sig.length + 1
      ∧ (sigBuffer sig).drop 1 = sig
      ∧ (bundle_signature data oid sig).getD
          ((bundle_signature data oid sig).length - (sig.length + 1)) 256 = 0 := by
  refine ⟨rfl, rfl, rfl, ?_⟩
  have hdec := encodeSignedCert_decompContent data oid sig
  have hlen : (encodeSignedCert data oid sig).length
      = (preSigContent data oid sig).length + (sig.length + 1) := by
    rw [hdec, List.length_append]; rfl
  have hblen := bundle_signature_length data oid sig
  have hidx : (bundle_signature data oid sig).length - (sig.length + 1)
      = (preSigContent data oid sig).length := by omega
  rw [hidx]
  have hget : (encodeSignedCert data oid sig).getD
      (preSigContent data oid sig).length 256 = 0 := by
    rw [hdec, List.getD_eq_getElem?_getD, List.getElem?_append_right le_rfl]
    simp [sigBuffer]
  unfold bundle_signature
  split
  · rename_i hguard
    have hne : (encodeSignedCert data oid sig).length - 261
        ≠ (preSigContent data oid sig).length := by omega
    rw [List.getD_eq_getElem?_getD, List.getElem?_set_ne hne,
      ← List.getD_eq_getElem?_getD]
    exact hget
  · exact hget

/-- C3 witness: the theorem applied at a concrete 256-byte signature. -/
theorem C3_unused_bits_octet_witness :
    sigBuffer (List.replicate 256 0x33) = 0 :: List.replicate 256 0x33
      ∧ (sigBuffer (List.replicate 256 0x33)).length
          = (List.replicate 256 (0x33 : Nat)).length + 1
      ∧ (sigBuffer (List.replicate 256 0x33)).drop 1 = List.replicate 256 0x33
      ∧ (bundle_signature [0x13] [0x2C] (List.replicate 256 0x33)).getD
          ((bundle_signature [0x13] [0x2C] (List.replicate 256 0x33)).length
            - ((List.replicate 256 (0x33 : Nat)).length + 1)) 256 = 0 :=
  C3_unused_bits_octet [0x13] [0x2C] (List.replicate 256 0x33) (by simp)

/-- The property C3 asserts for every signature length: buffer one byte
longer, raw signature at offset 1, and a zero unused-bits octet in the
Bundler's output. -/
def unusedBitsOctetZero (data oid sig : List Nat) : Bool :=
  ((sigBuffer sig).length == sig.length + 1)
    && ((sigBuffer sig).drop 1 == sig)
    && ((bundle_signature data oid sig).getD
          ((bundle_signature data oid sig).length - (sig.length + 1)) 256 == 0)

/-- C3 counterexample: at raw-signature length 260 the encoded signature
field is 265 bytes and its contents start at offset `len − 261`, exactly
where the hard-coded patch writes `0x03` — the unused-bits octet in the
output is `0x03`, not `0x00`. -/
theorem C3_unused_bits_counterexample :
    unusedBitsOctetZero [0x13] [0x2C] (List.replicate 260 0x33) = false := by
  decide

/-! ## Extension Builder (`add_*`, `add_extensions_to_crq`, efikeygen.c:112-319)

The individual builders each produce one extension value and append it, with
an OID tag and a criticality flag, to the certificate request's extension
handle; `add_extensions_to_crq` fixes the insertion order.  The key-hash
primitive `PK11_MakeIDFromPubKey ∘ PK11_DEREncodePublicKey` is external NSS
code and enters the model as an abstract function `keyid`. -/

/-- The extension OIDs used by efikeygen (`SEC_OID_X509_*`). -/
inductive ExtOid where
  | subjectKeyId
  | basicConstraints
  | keyUsage
  | extKeyUsage
  | authKeyId
  | authInfoAccess
deriving DecidableEq

/-- One appended extension: OID, criticality flag, DER-encoded value. -/
structure CertExtension where
  oid : ExtOid
  critical : Bool
  value : List Nat
deriving DecidableEq

/-- Modelled from the spec: `generate_octet_string` (cms_common.c, not in
src) wraps its input as an OCTET STRING. -/
def generate_octet_string (inner : List Nat) : List Nat := derTlv 0x04 inner

/-- Modelled from the spec: `make_context_specific` (cms_common.c, not in
src) wraps its input in a context-specific explicit tag `[n]`. -/
def make_context_specific (n : Nat) (inner : List Nat) : List Nat :=
  derTlv (0xA0 + n) inner

/-- Modelled from the spec: `wrap_in_seq` (cms_common.c, not in src) wraps
its input in a SEQUENCE. -/
def wrap_in_seq (inner : List Nat) : List Nat := derTlv 0x30 inner

/-- Modelled from the spec: `CERT_EncodeBasicConstraintValue` (external NSS)
for `isCA = true` with unconstrained path length: a SEQUENCE holding
BOOLEAN TRUE. -/
def basic_constraints_value : List Nat := derTlv 0x30 (derTlv 0x01 [0xFF])

/-- Modelled from the spec: `generate_auth_info` (cms_common.c, not in src)
builds a single accessor entry carrying the issuer URL as a URI general
name (tag `0x86`), inside the AuthorityInfoAccess SEQUENCE. -/
def generate_auth_info (url : List Nat) : List Nat :=
  derTlv 0x30 (derTlv 0x30 (derTlv 0x06 [0x2B, 0x06, 0x01, 0x05, 0x05, 0x07, 0x30, 0x02]
    ++ derTlv 0x86 url))

/-- `add_subject_key_id` (efikeygen.c:112-137): the key hash of the
subject's public key wrapped as an OCTET STRING, non-critical. -/
def add_subject_key_id (keyid : List Nat → List Nat) (pubkey : List Nat) :
    CertExtension :=
  ⟨.subjectKeyId, false, generate_octet_string (keyid pubkey)⟩

/-- `add_auth_key_id` (efikeygen.c:139-168): the key hash of the given
public key wrapped in a context-specific `[0]` tag inside a SEQUENCE,
non-critical. -/
def add_auth_key_id (keyid : List Nat → List Nat) (pubkey : List Nat) :
    CertExtension :=
  ⟨.authKeyId, false, wrap_in_seq (make_context_specific 0 (keyid pubkey))⟩

/-- `add_key_usage` (efikeygen.c:171-203): the literal fixed buffer
`value[0]=0x03, value[1]=0x02, value[2]=0x01, value[3]=0x86` (the `#else`
branch of the `#if 0`), appended critical. -/
def add_key_usage : CertExtension :=
  ⟨.keyUsage, true, [0x03, 0x02, 0x01, 0x86]⟩

/-- `add_basic_constraints` (efikeygen.c:205-227): `isCA = true`, path
length unconstrained, appended critical. -/
def add_basic_constraints : CertExtension :=
  ⟨.basicConstraints, true, basic_constraints_value⟩

/-- `add_extended_key_usage` (efikeygen.c:229-248): the literal 12-byte
code-signing EKU value, non-critical. -/
def add_extended_key_usage : CertExtension :=
  ⟨.extKeyUsage, false,
    [0x30, 0x0a, 0x06, 0x08, 0x2b, 0x06, 0x01, 0x05, 0x05, 0x07, 0x03, 0x03]⟩

/-- `add_auth_info` (efikeygen.c:250-269): the issuer-URL accessor,
non-critical. -/
def add_auth_info (url : List Nat) : CertExtension :=
  ⟨.authInfoAccess, false, generate_auth_info url⟩

/-- `add_extensions_to_crq` (efikeygen.c:271-319): subject key id, then —
only when `is_ca` — basic constraints and key usage, then extended key
usage, then the authority key id built from the subject's key when
self-signed and from the signer's key otherwise, then authority info
access. -/
def add_extensions_to_crq (keyid : List Nat → List Nat)
    (is_ca is_self_signed : Bool) (pubkey spubkey url : List Nat) :
    List CertExtension :=
  [add_subject_key_id keyid pubkey]
    ++ (if is_ca then [add_basic_constraints, add_key_usage] else [])
    ++ [add_extended_key_usage,
        add_auth_key_id keyid (if is_self_signed then pubkey else spubkey),
        add_auth_info url]

/-- C5: for every profile the extension set is exactly the canonical
insertion order — subject-key-id, then basic-constraints and key-usage when
`is_ca` (omitted otherwise), then extended-key-usage, then
authority-key-id, then authority-info-access — and the CA-only extensions
are present if and only if `is_ca` is true. -/
theorem C5_extension_order (keyid : List Nat → List Nat)
    (is_ca is_self_signed : Bool) (pubkey spubkey url : List Nat) :
    (add_extensions_to_crq keyid is_ca is_self_signed pubkey spubkey url).map
        (fun e => e.oid)
      = (if is_ca then
          [ExtOid.subjectKeyId, ExtOid.basicConstraints, ExtOid.keyUsage,
            ExtOid.extKeyUsage, ExtOid.authKeyId, ExtOid.authInfoAccess]
        else
          [ExtOid.subjectKeyId, ExtOid.extKeyUsage, ExtOid.authKeyId,
            ExtOid.authInfoAccess])
      ∧ ((ExtOid.keyUsage ∈ (add_extensions_to_crq keyid is_ca is_self_signed
            pubkey spubkey url).map (fun e => e.oid)
          ∨ ExtOid.basicConstraints ∈ (add_extensions_to_crq keyid is_ca
              is_self_signed pubkey spubkey url).map (fun e => e.oid))
        ↔ is_ca = true) := by
  cases is_ca <;>
    simp [add_extensions_to_crq, add_subject_key_id, add_basic_constraints,
      add_key_usage, add_extended_key_usage, add_auth_key_id, add_auth_info]

/-- C6: the authority-key-id value is the key hash of the subject's own
public key when self-signed and of the distinct signer's public key
otherwise, wrapped in a context-specific `[0]` tag inside a SEQUENCE; and
(given a collision-free key digest) two distinct keys yield distinct
values. -/
theorem C6_auth_key_id_source (keyid : List Nat → List Nat)
    (hinj : Function.Injective keyid)
    (is_ca is_self_signed : Bool) (pubkey spubkey url k₁ k₂ : List Nat)
    (hk : k₁ ≠ k₂) :
    (add_extensions_to_crq keyid is_ca is_self_signed pubkey spubkey
        url).filter (fun e => decide (e.oid = ExtOid.authKeyId))
      = [⟨ExtOid.authKeyId, false,
          wrap_in_seq (make_context_specific 0
            (keyid (if is_self_signed then pubkey else spubkey)))⟩]
    ∧ (add_auth_key_id keyid k₁).value ≠ (add_auth_key_id keyid k₂).value := by
  constructor
  · cases is_ca <;>
      simp [add_extensions_to_crq, add_subject_key_id, add_basic_constraints,
        add_key_usage, add_extended_key_usage, add_auth_key_id, add_auth_info]
  · intro hval
    simp only [add_auth_key_id, wrap_in_seq, make_context_specific] at hval
    exact hk (hinj (derTlv_inj (derTlv_inj hval).2).2)

/-- C6 witness: the theorem applied with the identity digest (injective)
and the distinct keys `[1]` and `[2]`. -/
theorem C6_auth_key_id_source_witness :
    (add_extensions_to_crq (fun k => k) false true [1] [2] []).filter
        (fun e => decide (e.oid = ExtOid.authKeyId))
      = [⟨ExtOid.authKeyId, false, wrap_in_seq (make_context_specific 0 [1])⟩]
    ∧ (add_auth_key_id (fun k => k) [1]).value
        ≠ (add_auth_key_id (fun k => k) [2]).value := by
  have h := C6_auth_key_id_source (fun k => k) (fun a b hab => hab)
    false true [1] [2] [] [1] [2] (by decide)
  simpa using h

/-- C8: the key-usage extension is added exactly for CA profiles, is
critical, and carries the literal fixed buffer
`value[0]=0x03, value[1]=0x02, value[2]=0x01, value[3]=0x86` — a BIT STRING
with padding-length octet 1 and content byte `0x86` — not a value derived
from named certificate-type flags. -/
theorem C8_key_usage_literal (keyid : List Nat → List Nat)
    (is_self_signed : Bool) (pubkey spubkey url : List Nat) :
    (add_extensions_to_crq keyid true is_self_signed pubkey spubkey
        url).filter (fun e => decide (e.oid = ExtOid.keyUsage))
      = [⟨ExtOid.keyUsage, true, [0x03, 0x02, 0x01, 0x86]⟩]
    ∧ (add_extensions_to_crq keyid false is_self_signed pubkey spubkey
        url).filter (fun e => decide (e.oid = ExtOid.keyUsage)) = [] := by
  constructor <;>
    simp [add_extensions_to_crq, add_subject_key_id, add_basic_constraints,
      add_key_usage, add_extended_key_usage, add_auth_key_id, add_auth_info]

/-! ## Orchestrator (`main`, efikeygen.c:351-540)

The argument-validation block (lines 422-433), the output-file opens
(lines 435-441), and the sign-bundle-write tail (lines 520-539) are
modelled as explicit functions.  External effects (file opens, the
signer, the encoder) enter as Boolean success flags or as abstract
functions supplied by the caller. -/

/-- The fatal argument errors of `main` (efikeygen.c:425-433), in source
order. -/
inductive ArgError where
  | conflictingFlags
  | missingCommonName
  | missingSigner
deriving DecidableEq

/-- The validation block of `main` (efikeygen.c:422-433): resolve the
`is_self_signed == -1` default to `is_ca && !signer`, then reject
self-sign together with a signer, a missing common name, and a
non-self-signed profile without a signer; on success return the resolved
self-sign flag. -/
def validate_args (selfSignFlag : Option Bool) (is_ca hasSigner hasCN : Bool) :
    Except ArgError Bool :=
  let ss := selfSignFlag.getD (is_ca && !hasSigner)
  if ss && hasSigner then .error .conflictingFlags
  else if !hasCN then .error .missingCommonName
  else if !ss && !hasSigner then .error .missingSigner
  else .ok ss

/-- `main` with all encoding work abstracted: validation (efikeygen.c:422-433)
runs strictly before any encoding, which only happens on the resolved
profile a successful validation returns. -/
def main_checked (selfSignFlag : Option Bool) (is_ca hasSigner hasCN : Bool)
    (encodeRun : Bool → Except ArgError (List Nat)) :
    Except ArgError (List Nat) :=
  match validate_args selfSignFlag is_ca hasSigner hasCN with
  | .error e => .error e
  | .ok ss => encodeRun ss

/-- C7: setting the self-sign flag together with an explicit signer is
rejected before any encoding work begins (for every encoding continuation
and every other flag); and with neither the self-sign flag nor a signer
given, self-signing is assumed exactly when `is_ca` is true — a non-CA
profile with no signer is rejected, not silently self-signed. -/
theorem C7_flag_validation (is_ca hasCN : Bool)
    (encodeRun : Bool → Except ArgError (List Nat)) :
    main_checked (some true) is_ca true hasCN encodeRun
        = .error .conflictingFlags
      ∧ main_checked none is_ca false true encodeRun
          = (if is_ca then encodeRun true else .error .missingSigner) := by
  cases is_ca <;> cases hasCN <;> simp [main_checked, validate_args]

/-- The outcome of `main`'s tail: either a fatal `errx`/`err` with its
message, or a normal exit having written `bytesWritten` bytes of output. -/
inductive RunOutcome where
  | fatal (msg : String)
  | success (bytesWritten : Nat)
deriving DecidableEq

/-- The tail of `main` from signing to the final write
(efikeygen.c:520-539).  `SEC_SignData`'s status (line 521) is assigned but
never checked, and `bundle_signature`'s return code (line 525) is ignored:
when `generate_algorithm_id` fails, `bundle_signature` returns `-1` leaving
`sigder` zero-initialized, and `main` proceeds to `write` regardless; only
a `SEC_ASN1EncodeItem` failure is fatal (the `errx` inside
`bundle_signature`, line 104). -/
def main_sign_and_write (signOk algIdOk encodeOk writeOk : Bool)
    (data oid sig : List Nat) : RunOutcome :=
  if algIdOk && !encodeOk then .fatal "could not encode certificate"
  else
    if writeOk then
      .success (if algIdOk then (bundle_signature data oid sig).length else 0)
    else .fatal "could not write output"

/-- C4 (code bug): a failure of the external signing step does not abort
the run — the output is written and the process exits successfully — and a
failure of algorithm-identifier resolution inside the Bundler likewise does
not abort the run, which exits successfully having written an empty
output.  (A DER-encoding failure, by contrast, is fatal.)  The claim that
every such error terminates the run before output is written is violated
by the code. -/
theorem C4_sign_failure_not_fatal :
    main_sign_and_write false true true true [0x30, 0x00] [0x2A]
        (List.replicate 256 0x44)
      = .success (bundle_signature [0x30, 0x00] [0x2A]
          (List.replicate 256 0x44)).length
    ∧ main_sign_and_write true false true true [0x30, 0x00] [0x2A]
        (List.replicate 256 0x44) = .success 0
    ∧ main_sign_and_write true true false true [0x30, 0x00] [0x2A]
        (List.replicate 256 0x44) = .fatal "could not encode certificate" :=
  ⟨rfl, rfl, rfl⟩

/-- The error message each failure path of `add_subject_key_id`
(efikeygen.c:112-137) reports; each Boolean is the success of the
corresponding call, in source order
(`PK11_DEREncodePublicKey`, `PK11_MakeIDFromPubKey`,
`generate_octet_string`, `CERT_AddExtension`). -/
def add_subject_key_id_run (derOk makeIdOk wrapOk addOk : Bool) :
    Except String Unit :=
  if !derOk then .error "could not encode subject key id extension"
  else if !makeIdOk then .error "could not encode subject key id extension"
  else if !wrapOk then .error "could not encode subject key id extension"
  else if !addOk then .error "could not encode subject key id extension"
  else .ok ()

/-- The error message each failure path of `add_auth_key_id`
(efikeygen.c:139-168) reports, in source order
(`PK11_DEREncodePublicKey`, `PK11_MakeIDFromPubKey`,
`make_context_specific`, `wrap_in_seq`, `CERT_AddExtension`); the
`make_context_specific` and `wrap_in_seq` failure paths (lines 153 and 160)
report the subject-key-id message. -/
def add_auth_key_id_run (derOk makeIdOk ctxOk wrapOk addOk : Bool) :
    Except String Unit :=
  if !derOk then .error "could not encode CA Key ID extension"
  else if !makeIdOk then .error "could not encode CA Key ID extension"
  else if !ctxOk then .error "could not encode subject key id extension"
  else if !wrapOk then .error "could not encode subject key id extension"
  else if !addOk then .error "could not encode CA Key ID extension"
  else .ok ()

/-- C9 (code bug): two failure paths of the authority-key-id builder report
the subject-key-id extension's message instead of the CA Key ID message, so
not every extension failure is reported with the name of the extension that
failed. -/
theorem C9_auth_key_id_error_misnamed :
    add_auth_key_id_run true true false true true
        = .error "could not encode subject key id extension"
    ∧ add_auth_key_id_run true true true false true
        = .error "could not encode subject key id extension"
    ∧ add_subject_key_id_run false true true true
        = .error "could not encode subject key id extension" :=
  ⟨rfl, rfl, rfl⟩

/-- The output-file opening block of `main` (efikeygen.c:435-441):
`outfile` is opened and its descriptor checked; then the private-key output
is opened with `poutfile` — which may be absent (a NULL path) — and the
check that follows tests `outfd` again instead of `p12fd`. -/
def open_outputs (outfile : String) (poutfile : Option String)
    (openFile : Option String → Int) : Except String (Int × Int) :=
  if openFile (some outfile) < 0 then .error ("could not open " ++ outfile)
  else
    if openFile (some outfile) < 0 then
      .error ("could not open " ++ poutfile.getD "(null)")
    else .ok (openFile (some outfile), openFile poutfile)

/-- C10: the private-key output is opened on every invocation — with the
possibly-null `poutfile` path — and as the check after that open tests the
certificate-output descriptor, the run proceeds whenever the certificate
output opened, whatever the private-key open returned: a failure to open
the private-key output never aborts the run. -/
theorem C10_privkey_open_unchecked (outfile : String)
    (poutfile : Option String) (openFile : Option String → Int)
    (h : 0 ≤ openFile (some outfile)) :
    open_outputs outfile poutfile openFile
      = .ok (openFile (some outfile), openFile poutfile) := by
  unfold open_outputs
  rw [if_neg (by omega), if_neg (by omega)]

/-- An open that succeeds on the certificate output but fails (`-1`) on the
private-key output, including on the NULL path. -/
def openProbe : Option String → Int
  | some _ => 3
  | none => -1

/-- C10 witness: with no private-key path supplied, the open of the NULL
path fails with `-1`, yet the run proceeds. -/
theorem C10_privkey_open_unchecked_witness :
    0 ≤ openProbe (some "signed.cer")
      ∧ open_outputs "signed.cer" none openProbe = .ok (3, -1) :=
  ⟨by decide, C10_privkey_open_unchecked "signed.cer" none openProbe (by decide)⟩

end Efikeygen
